import Mathlib

/-!
Verification of the Intl.js locale-negotiation and date/time-formatting
abstract operations (`src/abstracts.js`, `src/globals.js`) against their
natural-language specification.

JavaScript strings are modelled as `List Char` (all values handled by the
operations under study are ASCII language tags, option names and pattern
text, so code-unit indices coincide with list indices).  JavaScript
`undefined` is modelled with `Option`; thrown exceptions are modelled with
`Except JSErr`.
-/

/-- Strings of the embedded JavaScript program, as lists of characters. -/
abbrev JStr := List Char

/-- Exceptions thrown by the embedded program.  `missingData` stands for the
error thrown by ResolveLocale when no locale data is registered (a
`ReferenceError` in the source, called MissingData by the specification);
`typeError` for JavaScript `TypeError`; `rangeError` for `RangeError`. -/
inductive JSErr where
  | missingData
  | typeError
  | rangeError
deriving DecidableEq, Repr

/-- ASCII lowercasing of one character, the effect of
`String.prototype.toLowerCase` on ASCII data. -/
def lowerChar (c : Char) : Char :=
  if 65 ≤ c.toNat ∧ c.toNat ≤ 90 then Char.ofNat (c.toNat + 32) else c

/-- ASCII uppercasing of one character, the effect of
`String.prototype.toUpperCase` on ASCII data. -/
def upperChar (c : Char) : Char :=
  if 97 ≤ c.toNat ∧ c.toNat ≤ 122 then Char.ofNat (c.toNat - 32) else c

/-- JavaScript `s.toLowerCase()` on ASCII strings. -/
def jsToLower (s : JStr) : JStr := s.map lowerChar

/-- JavaScript `s.toUpperCase()` on ASCII strings. -/
def jsToUpper (s : JStr) : JStr := s.map upperChar

/-- Index of the first occurrence of an element, `-1` when absent: the
semantics of the built-in `Array.prototype.indexOf` called with no start
index (used via `arrIndexOf.call` throughout `abstracts.js`). -/
def jsIndexOf {α : Type} [DecidableEq α] (l : List α) (a : α) : Int :=
  match l with
  | [] => -1
  | x :: xs =>
    if x = a then 0
    else
      match jsIndexOf xs a with
      | -1 => -1
      | i => i + 1

/-- Last index of a character within a string, the semantics of
`String.prototype.lastIndexOf` for a one-character search string
(`none` models the `-1` / not-found outcome). -/
def jsLastIndexOfChar (s : JStr) (c : Char) : Option Nat :=
  match s.reverse.findIdx? (· = c) with
  | none => none
  | some i => some (s.length - 1 - i)

/-- Character at an index, with the JavaScript convention that an
out-of-range `charAt` yields the empty string (here: a NUL character,
which never compares equal to the separators the code looks for). -/
def jsCharAt (s : JStr) (i : Nat) : Char := s.getD i (Char.ofNat 0)

/- ### 9.2.2 BestAvailableLocale (src/abstracts.js lines 256-286) -/

/-- One truncation step of BestAvailableLocale: find the last `"-"`;
if there is none the search is over (`none`); otherwise move the cut two
characters further left when the character at `pos - 2` is also a `"-"`
(dropping the one-character subtag sitting between them together with its
separator), and keep the prefix before the cut. -/
def balStep (candidate : JStr) : Option JStr :=
  match jsLastIndexOfChar candidate '-' with
  | none => none
  | some pos =>
    let pos' := if 2 ≤ pos ∧ jsCharAt candidate (pos - 2) = '-' then pos - 2 else pos
    some (candidate.take pos')

/-- Fuel-indexed main loop of BestAvailableLocale: return the candidate as
soon as it is an element of `availableLocales`, otherwise truncate with
`balStep` and repeat.  Each step shortens the candidate, so any fuel larger
than the candidate's length is enough. -/
def balLoop (availableLocales : List JStr) : Nat → JStr → Option JStr
  | 0, _ => none
  | fuel + 1, candidate =>
    if jsIndexOf availableLocales candidate > -1 then some candidate
    else
      match balStep candidate with
      | none => none
      | some candidate' => balLoop availableLocales fuel candidate'

/-- Embedding of `BestAvailableLocale` (src/abstracts.js lines 256-286).
`none` models the `undefined` return ("no match"). -/
def BestAvailableLocale (availableLocales : List JStr) (locale : JStr) : Option JStr :=
  balLoop availableLocales (locale.length + 1) locale

/- ### The arrIndexOf fallback shim (src/globals.js lines 22-32) -/

/-- Loop of the `arrIndexOf` fallback shim:
`for (var i = arguments[1] || 0, max = t.length; i < max; i++)` with body
`if (t[i] === search) return i;`.  The second argument counts the remaining
iterations (`max - i`). -/
def arrIndexOfShimLoop {α : Type} [DecidableEq α] (t : List α) (search : α) :
    Nat → Nat → Option Nat
  | _, 0 => none
  | i, k + 1 =>
    if t.get? i = some search then some i
    else arrIndexOfShimLoop t search (i + 1) k

/-- Embedding of the fallback ordered-array-search shim
(src/globals.js lines 22-32).  `if (!t.length) return -1;` yields
`some (-1)` for an empty receiver; a loop hit yields `some i`; falling off
the end of the loop hits no `return` statement, so the function yields
JavaScript `undefined`, modelled as `none`.  The `arguments[1] || 0` start
index is modelled as a natural number (the shim performs no negative-index
normalisation). -/
def arrIndexOfShim {α : Type} [DecidableEq α] (t : List α) (search : α)
    (fromIndex : Nat) : Option Int :=
  if t.length = 0 then some (-1)
  else (arrIndexOfShimLoop t search fromIndex (t.length - fromIndex)).map Int.ofNat

/-- Modelled from the spec: the built-in `Array.prototype.indexOf` that the
shim stands in for (the spec's "ordered-array search" equivalence target) —
the index of the first element strictly equal to the search value at or
after the start index, and `-1` when no such element exists. -/
def arrIndexOfBuiltin {α : Type} [DecidableEq α] (t : List α) (search : α)
    (fromIndex : Nat) : Int :=
  match (t.drop fromIndex).findIdx? (· = search) with
  | some j => Int.ofNat (fromIndex + j)
  | none => -1

/- ### ToDateTimeOptions (src/abstracts.js lines 1248-1302) -/

/-- Date/time component properties of an options record, as read and written
by `ToDateTimeOptions`.  `none` models an absent or `undefined` property.
The source wraps the caller's record in `objCreate(options)`; reads on the
wrapper fall through to the copied record and the injected writes shadow it,
so the wrapper is flattened into one record. -/
structure DTOptions where
  weekday : Option JStr := none
  year : Option JStr := none
  month : Option JStr := none
  day : Option JStr := none
  hour : Option JStr := none
  minute : Option JStr := none
  second : Option JStr := none
deriving DecidableEq, Repr

/-- Embedding of `ToDateTimeOptions` (src/abstracts.js lines 1248-1302).
`options = none` models an `undefined` argument (step 1 turns it into a
record with every property absent). -/
def ToDateTimeOptions (options : Option DTOptions) (required defaults : JStr) :
    DTOptions :=
  let o := options.getD {}
  let needDefaults := true
  let needDefaults :=
    if (required = "date".data ∨ required = "any".data) ∧
        (o.weekday.isSome ∨ o.year.isSome ∨ o.month.isSome ∨ o.day.isSome)
      then false else needDefaults
  let needDefaults :=
    if (required = "time".data ∨ required = "any".data) ∧
        (o.hour.isSome ∨ o.minute.isSome ∨ o.second.isSome)
      then false else needDefaults
  let o :=
    if needDefaults ∧ (defaults = "date".data ∨ defaults = "all".data) then
      { o with year := some ("numeric".data), month := some ("numeric".data),
               day := some ("numeric".data) }
    else o
  let o :=
    if needDefaults ∧ (defaults = "time".data ∨ defaults = "all".data) then
      { o with hour := some ("numeric".data), minute := some ("numeric".data),
               second := some ("numeric".data) }
    else o
  o

/- ### ToLocalTime and FormatDateTime field values
(src/abstracts.js lines 1510-1693) -/

/-- Calendar field values of a decoded date, one per JavaScript `Date`
accessor used by `ToLocalTime` (`getDay`, `getFullYear`, `getMonth`,
`getDate`, `getHours`, `getMinutes`, `getSeconds`).  The millisecond-to-field
Gregorian decoding itself stays outside the model; every claim below
quantifies over all decoded values. -/
structure JSDate where
  day : Int
  fullYear : Int
  month : Int
  date : Int
  hours : Int
  minutes : Int
  seconds : Int
deriving DecidableEq, Repr

/-- Record produced by `ToLocalTime`, mirroring its `[[weekday]]`, `[[era]]`,
`[[year]]`, `[[month]]`, `[[day]]`, `[[hour]]`, `[[minute]]`, `[[second]]`
and `[[inDST]]` fields. -/
structure TMRecord where
  weekday : Int
  era : Int
  year : Int
  month : Int
  day : Int
  hour : Int
  minute : Int
  second : Int
  inDST : Bool
deriving DecidableEq, Repr

/-- Result of JavaScript `ToNumber` applied to the `getFullYear` function
object itself: the source's era line reads `+(d.getFullYear >= 0)` without
invoking the accessor, so `>=` coerces the function object via `ToNumber`,
which yields NaN for any function object (`none` models NaN). -/
def toNumberOfGetFullYearFn : Option Int := none

/-- JavaScript `>=` on a possibly-NaN left operand: every comparison
involving NaN is false. -/
def jsGeNaN (a : Option Int) (b : Int) : Bool :=
  match a with
  | none => false
  | some x => decide (b ≤ x)

/-- Embedding of `ToLocalTime` (src/abstracts.js lines 1667-1693) over an
already-decoded date.  `[[era]]` is `+(d.getFullYear >= 0)`; unary plus maps
the boolean comparison result to 1 or 0. -/
def ToLocalTime (d : JSDate) : TMRecord :=
  { weekday := d.day
    era := if jsGeNaN toNumberOfGetFullYearFn 0 then 1 else 0
    year := d.fullYear
    month := d.month
    day := d.date
    hour := d.hours
    minute := d.minutes
    second := d.seconds
    inDST := false }

/-- Embedding of the 12-hour-clock hour-value adjustment in `FormatDateTime`
(src/abstracts.js lines 1576-1588): under `[[hour12]]` the field value
becomes `v % 12`, the meridiem flag records whether that changed the value,
and a 0 result is remapped to 12 exactly when `[[hourNo0]]` is set. -/
def formatHourValue (hourNo0 : Bool) (v : Int) : Int × Bool :=
  let v2 := v % 12
  let pm := decide (v2 ≠ v)
  let v3 := if v2 = 0 ∧ hourNo0 then 12 else v2
  (v3, pm)

/-- Modelled from the spec: `FormatNumber` and the Number Formatting Engine
are not under `src/` (only callers are).  Per the spec, a formatter built
with `useGrouping:false` renders an integer with the locale's digit
characters and no separators; with Latin digits this is the plain decimal
numeral with a leading minus sign for negative values. -/
def FormatNumberInt (v : Int) : JStr :=
  if v < 0 then '-' :: v.natAbs.repr.data else v.natAbs.repr.data

/-- Rendering of a numeric-styled hour field under a 12-hour clock: the
adjusted value is passed through the Number Engine with grouping off
(src/abstracts.js lines 1590-1594). -/
def renderHour12Numeric (hourNo0 : Bool) (v : Int) : JStr :=
  FormatNumberInt (formatHourValue hourNo0 v).1

/-- First-occurrence string replacement, the semantics of
`String.prototype.replace` with a plain (non-empty) search string. -/
def jsReplaceFirst (pat repl : JStr) : JStr → JStr
  | [] => []
  | c :: rest =>
    if (c :: rest).take pat.length = pat then repl ++ (c :: rest).drop pat.length
    else c :: jsReplaceFirst pat repl rest

/-- Embedding of the era substitution in `FormatDateTime` (src/abstracts.js
lines 1608-1637 and 1640-1642): a narrow/short/long-styled era component
falls to the `default` switch arm, which keeps the raw `tm.[[era]]` field
value, and `result.replace` coerces that number to a string when replacing
the era placeholder in the pattern. -/
def eraSubstitute (d : JSDate) (pattern : JStr) : JStr :=
  jsReplaceFirst ("\x7bera\x7d".data) (FormatNumberInt (ToLocalTime d).era) pattern

/- ### BasicFormatMatcher (src/abstracts.js lines 1308-1434) -/

/-- Requested per-component styles: the `options.[[<property>]]` reads the
matcher performs for the nine rows of the date-time components table
(src/abstracts.js lines 1232-1242); an absent internal property reads as
`undefined` (`none`). -/
structure FmtOptions where
  weekday : Option JStr := none
  era : Option JStr := none
  year : Option JStr := none
  month : Option JStr := none
  day : Option JStr := none
  hour : Option JStr := none
  minute : Option JStr := none
  second : Option JStr := none
  timeZoneName : Option JStr := none
deriving DecidableEq, Repr

/-- One candidate CLDR pattern record: a per-component style when the
format's own property is present (`hop.call(format, property)`), plus its
pattern strings (carried along so distinct candidates with equal component
sets stay distinct). -/
structure DTFormat where
  weekday : Option JStr := none
  era : Option JStr := none
  year : Option JStr := none
  month : Option JStr := none
  day : Option JStr := none
  hour : Option JStr := none
  minute : Option JStr := none
  second : Option JStr := none
  timeZoneName : Option JStr := none
  pattern : JStr := []
  pattern12 : JStr := []
deriving DecidableEq, Repr

/-- The nine component accessors, in the insertion order of the
`dateTimeComponents` table that the matcher's `for..in` loop follows. -/
def dtComponentPairs : List ((FmtOptions → Option JStr) × (DTFormat → Option JStr)) :=
  [(fun o => o.weekday, fun f => f.weekday),
   (fun o => o.era, fun f => f.era),
   (fun o => o.year, fun f => f.year),
   (fun o => o.month, fun f => f.month),
   (fun o => o.day, fun f => f.day),
   (fun o => o.hour, fun f => f.hour),
   (fun o => o.minute, fun f => f.minute),
   (fun o => o.second, fun f => f.second),
   (fun o => o.timeZoneName, fun f => f.timeZoneName)]

/-- The ordered style scale of step c.vi.1:
`["2-digit", "numeric", "narrow", "short", "long"]`. -/
def styleValues : List JStr :=
  ["2-digit".data, "numeric".data, "narrow".data, "short".data, "long".data]

/-- Score contribution of one component (steps c.iv-c.vi of
BasicFormatMatcher): −20 when only the candidate has the component, −120
when only the request has it, otherwise the clamped style-distance penalty
computed from positions on the style scale (`indexOf` yields −1 for an
absent or unlisted style). -/
def componentPenalty (optionsProp formatProp : Option JStr) : Int :=
  if optionsProp = none ∧ formatProp ≠ none then -20
  else if optionsProp ≠ none ∧ formatProp = none then -120
  else
    let oi : Int := match optionsProp with
      | none => -1
      | some v => jsIndexOf styleValues v
    let fi : Int := match formatProp with
      | none => -1
      | some v => jsIndexOf styleValues v
    let delta := max (min (fi - oi) 2) (-2)
    if delta = 2 then -6
    else if delta = 1 then -3
    else if delta = -1 then -6
    else if delta = -2 then -8
    else 0

/-- Total score of a candidate format against the requested options: the
sum of the nine per-component contributions (the loop of step c starts from
0 and only ever subtracts penalties). -/
def formatScore (opts : FmtOptions) (f : DTFormat) : Int :=
  (dtComponentPairs.map (fun pr => componentPenalty (pr.1 opts) (pr.2 f))).sum

/-- Main loop of BasicFormatMatcher (steps 11.d-e): a candidate replaces the
current best only when its score is strictly greater. -/
def bfmLoop (opts : FmtOptions) : List DTFormat → Int → DTFormat → DTFormat
  | [], _, bf => bf
  | f :: rest, bs, bf =>
    if formatScore opts f > bs then bfmLoop opts rest (formatScore opts f) f
    else bfmLoop opts rest bs bf

/-- Embedding of `BasicFormatMatcher` (src/abstracts.js lines 1308-1423).
`bestScore` starts at −Infinity, so the first candidate always installs
itself; with no candidates `bestFormat` stays `undefined` (`none`). -/
def BasicFormatMatcher (opts : FmtOptions) (formats : List DTFormat) : Option DTFormat :=
  match formats with
  | [] => none
  | f :: rest => some (bfmLoop opts rest (formatScore opts f) f)

/-- Style-distance penalty as the specification words it: rank both styles
on the ordered scale, clamp the candidate-minus-requested delta to
`[-2, 2]`, and charge 6/3/6/8 for delta 2/1/−1/−2. -/
def styleDistancePenalty (requested candidate : JStr) : Int :=
  let delta := max (min (jsIndexOf styleValues candidate - jsIndexOf styleValues requested) 2) (-2)
  if delta = 2 then 6
  else if delta = 1 then 3
  else if delta = -1 then 6
  else if delta = -2 then 8
  else 0

/-- Number of components the caller requested that the candidate lacks. -/
def removedComponentCount (opts : FmtOptions) (f : DTFormat) : Nat :=
  dtComponentPairs.countP (fun pr => (pr.1 opts).isSome && (pr.2 f).isNone)

/-- Number of components the candidate has that the caller did not request. -/
def addedComponentCount (opts : FmtOptions) (f : DTFormat) : Nat :=
  dtComponentPairs.countP (fun pr => (pr.1 opts).isNone && (pr.2 f).isSome)

/-- Total of the style-distance penalties over components where both the
request and the candidate specify a style. -/
def stylePenaltyTotal (opts : FmtOptions) (f : DTFormat) : Int :=
  (dtComponentPairs.map (fun pr =>
    match pr.1 opts, pr.2 f with
    | some a, some b => styleDistancePenalty a b
    | _, _ => 0)).sum

deriving instance DecidableEq for Except

/- ### Unicode extension sequences and string utilities used by the
matchers (spec-modelled pattern, src callers in abstracts.js) -/

/-- Character class of the extension-subtag pattern `[0-9a-z]` under the
case-insensitive flag. -/
def isExtChar (c : Char) : Bool :=
  (48 ≤ c.toNat && c.toNat ≤ 57) || (97 ≤ c.toNat && c.toNat ≤ 122) ||
    (65 ≤ c.toNat && c.toNat ≤ 90)

/-- Length of the leading run of extension-subtag characters. -/
def alnumRunLen : JStr → Nat
  | [] => 0
  | c :: rest => if isExtChar c then alnumRunLen rest + 1 else 0

/-- Modelled from the spec: the grammar/registry module holding
`expUnicodeExSeq` is not under `src/`; per the spec it is "a pattern
matching a Unicode locale extension sequence (singleton `u` and its
following subtags)", i.e. `-u` followed by one or more groups of `-` and
2-8 alphanumerics, matched greedily and case-insensitively.  This function
consumes the `(-[0-9a-z]{2,8})+` group part: a run longer than 8 makes the
quantifier take 8 characters and then stop the repetition (the following
alphanumeric cannot start a new group); structurally valid tags never
exceed 8. -/
def extGroupsLen : Nat → JStr → Nat
  | 0, _ => 0
  | fuel + 1, s =>
    match s with
    | '-' :: rest =>
      let r := alnumRunLen rest
      if r < 2 then 0
      else if 8 < r then 1 + 8
      else 1 + r + extGroupsLen fuel (rest.drop r)
    | _ => 0

/-- Length of a Unicode-extension-sequence match starting at the head of
the string, if any (see `extGroupsLen` for the modelled pattern). -/
def uextMatchLen (s : JStr) : Option Nat :=
  match s with
  | '-' :: c :: rest =>
    if c = 'u' ∨ c = 'U' then
      let g := extGroupsLen (rest.length + 1) rest
      if g = 0 then none else some (2 + g)
    else none
  | _ => none

/-- Removal of every Unicode extension sequence, the semantics of
`locale.replace(expUnicodeExSeq, '')` with the pattern's global flag. -/
def stripUextAux : Nat → JStr → JStr
  | 0, s => s
  | _ + 1, [] => []
  | fuel + 1, c :: rest =>
    match uextMatchLen (c :: rest) with
    | some len => stripUextAux fuel ((c :: rest).drop len)
    | none => c :: stripUextAux fuel rest

/-- JavaScript `String(locale).replace(expUnicodeExSeq, '')`. -/
def stripUext (s : JStr) : JStr := stripUextAux (s.length + 1) s

/-- First Unicode extension sequence of a string, the semantics of
`locale.match(expUnicodeExSeq)[0]` when a match exists. -/
def firstUextAux : Nat → JStr → Option JStr
  | 0, _ => none
  | _ + 1, [] => none
  | fuel + 1, c :: rest =>
    match uextMatchLen (c :: rest) with
    | some len => some ((c :: rest).take len)
    | none => firstUextAux fuel rest

/-- JavaScript `locale.match(expUnicodeExSeq)[0]` (`none` when there is no
match, where the source would throw on the `[0]` access). -/
def firstUext (s : JStr) : Option JStr := firstUextAux (s.length + 1) s

/-- Position of the first occurrence of a substring, `none` when absent. -/
def idxSubAux (pat : JStr) : JStr → Option Nat
  | [] => if pat = [] then some 0 else none
  | c :: rest =>
    if (c :: rest).take pat.length = pat then some 0
    else (idxSubAux pat rest).map (· + 1)

/-- JavaScript `String.prototype.indexOf` for a substring search. -/
def jsIndexOfSub (s pat : JStr) : Int :=
  match idxSubAux pat s with
  | some i => i
  | none => -1

/-- JavaScript `String.prototype.split("-")`. -/
def splitDashAux : JStr → JStr → List JStr
  | acc, [] => [acc.reverse]
  | acc, c :: rest =>
    if c = '-' then acc.reverse :: splitDashAux [] rest
    else splitDashAux (c :: acc) rest

/-- JavaScript `locale.split("-")`. -/
def splitDash (s : JStr) : List JStr := splitDashAux [] s

/-- JavaScript `Array.prototype.join("-")`. -/
def joinDash : List JStr → JStr
  | [] => []
  | [p] => p
  | p :: rest => p ++ '-' :: joinDash rest

/-- Lookup in an ordinary own-property table (the `hop.call(obj, k)` guarded
reads of the source). -/
def lookupAssoc {β : Type} (m : List (JStr × β)) (k : JStr) : Option β :=
  (m.find? (fun p => decide (p.1 = k))).map (·.2)

/- ### LookupMatcher and ResolveLocale (src/abstracts.js lines 294-574) -/

/-- Matcher result record: `[[locale]]` plus the optional `[[extension]]`
and `[[extensionIndex]]` pair. -/
structure MatcherR where
  locale : JStr
  extension : Option (JStr × Int)
deriving DecidableEq, Repr

/-- Steps 1-4 of LookupMatcher: walk the requested locales, strip Unicode
extension sequences, and stop at the first with a best available locale.
Returns the requested locale, its stripped form, and the match. -/
def lookupMatcherLoop (avail : List JStr) : List JStr → Option (JStr × JStr × JStr)
  | [] => none
  | loc :: rest =>
    let ne := stripUext loc
    match BestAvailableLocale avail ne with
    | some av => some (loc, ne, av)
    | none => lookupMatcherLoop avail rest

/-- Embedding of `LookupMatcher` (src/abstracts.js lines 294-360).  The
process-wide default locale is passed explicitly. -/
def LookupMatcher (avail requested : List JStr) (defaultLocale : JStr) : MatcherR :=
  match lookupMatcherLoop avail requested with
  | some (loc, ne, av) =>
    if loc ≠ ne then
      { locale := av,
        extension := some ((firstUext loc).getD [], jsIndexOfSub loc ("-u-".data)) }
    else { locale := av, extension := none }
  | none => { locale := defaultLocale, extension := none }

/-- Allowed-value list for one extension key (first entry is the default). -/
abbrev KeyLocaleData := List JStr

/-- Options record consumed by ResolveLocale: the `[[localeMatcher]]` slot
and the optional `[[<key>]]` slots. -/
structure RLOptions where
  localeMatcher : JStr
  keyOpts : List (JStr × JStr)
deriving DecidableEq, Repr

/-- Result record of ResolveLocale: `[[dataLocale]]`, `[[locale]]`, and one
resolved value per relevant extension key in order. -/
structure RLResult where
  dataLocale : JStr
  locale : JStr
  keyValues : List (JStr × Option JStr)
deriving DecidableEq, Repr

/-- Steps 11.d-11.h of ResolveLocale for one relevant extension key,
returning the resolved value and the `supportedExtensionAddition`.  In the
source's step g.ii.2 branch (the key appears in the extension sequence as
its last subtag or with a following subtag of at most 2 characters) the
call `indexOf(keyLocaleData, 'true')` passes no `this` receiver — unlike
every other call site, which uses `indexOf.call` — so the built-in
`Array.prototype.indexOf` (or the strict-mode shim) throws a TypeError
before any lookup happens. -/
def resolveLocaleKey (key : JStr) (keyLocaleData : KeyLocaleData)
    (extensionSubtags : Option (List JStr)) (options : RLOptions) :
    Except JSErr (Option JStr × JStr) :=
  let value : Option JStr := keyLocaleData.head?
  let addition : JStr := []
  let afterExt : Except JSErr (Option JStr × JStr) :=
    match extensionSubtags with
    | none => .ok (value, addition)
    | some subtags =>
      let keyPos := jsIndexOf subtags key
      if keyPos ≠ -1 then
        if keyPos + 1 < subtags.length ∧
            (subtags.getD (keyPos + 1).toNat []).length > 2 then
          let requestedValue := subtags.getD (keyPos + 1).toNat []
          if jsIndexOf keyLocaleData requestedValue ≠ -1 then
            .ok (some requestedValue, '-' :: key ++ '-' :: requestedValue)
          else .ok (value, addition)
        else .error .typeError
      else .ok (value, addition)
  match afterExt with
  | .error e => .error e
  | .ok (value, addition) =>
    match lookupAssoc options.keyOpts key with
    | some optionsValue =>
      if jsIndexOf keyLocaleData optionsValue ≠ -1 then
        if some optionsValue ≠ value then .ok (some optionsValue, [])
        else .ok (value, addition)
      else .ok (value, addition)
    | none => .ok (value, addition)

/-- Step 11 of ResolveLocale: iterate the relevant extension keys in order,
collecting resolved values and concatenating the supported-extension
additions.  Reading `foundLocaleData[key]` when `localeData[foundLocale]`
is `undefined`, or reading `keyLocaleData['0']` when the key has no data,
throws a TypeError in the source; both are modelled as errors. -/
def rlKeysLoop (localeData : List (JStr × List (JStr × KeyLocaleData)))
    (foundLocale : JStr) (extensionSubtags : Option (List JStr))
    (options : RLOptions) :
    List JStr → Except JSErr (List (JStr × Option JStr) × JStr)
  | [] => .ok ([], [])
  | key :: restKeys =>
    match lookupAssoc localeData foundLocale with
    | none => .error .typeError
    | some foundLocaleData =>
      match lookupAssoc foundLocaleData key with
      | none => .error .typeError
      | some keyLocaleData =>
        match resolveLocaleKey key keyLocaleData extensionSubtags options with
        | .error e => .error e
        | .ok (value, addition) =>
          match rlKeysLoop localeData foundLocale extensionSubtags options restKeys with
          | .error e => .error e
          | .ok (restVals, restAdds) =>
            .ok ((key, value) :: restVals, addition ++ restAdds)

/-- Embedding of `ResolveLocale` (src/abstracts.js lines 390-574).  The
empty-available-locales guard throws first (a `ReferenceError` in the
source; the spec's MissingData error); "best fit" matching delegates to the
lookup matcher (`BestFitMatcher` simply calls `LookupMatcher`). -/
def ResolveLocale (availableLocales requestedLocales : List JStr)
    (options : RLOptions) (relevantExtensionKeys : List JStr)
    (localeData : List (JStr × List (JStr × KeyLocaleData)))
    (defaultLocale : JStr) : Except JSErr RLResult :=
  if availableLocales.length = 0 then .error .missingData
  else
    let r :=
      if options.localeMatcher = "lookup".data then
        LookupMatcher availableLocales requestedLocales defaultLocale
      else
        LookupMatcher availableLocales requestedLocales defaultLocale
    let foundLocale := r.locale
    let extensionSubtags := r.extension.map (fun e => splitDash e.1)
    match rlKeysLoop localeData foundLocale extensionSubtags options
        relevantExtensionKeys with
    | .error e => .error e
    | .ok (keyValues, additions) =>
      let supportedExtension := "-u".data ++ additions
      let foundLocale' :=
        if supportedExtension.length > 2 then
          match r.extension with
          | some (_, extensionIndex) =>
            foundLocale.take extensionIndex.toNat ++ supportedExtension ++
              foundLocale.drop extensionIndex.toNat
          | none => foundLocale ++ supportedExtension ++ foundLocale
        else foundLocale
      .ok { dataLocale := r.locale, locale := foundLocale', keyValues := keyValues }

/- ### IsStructurallyValidLanguageTag (src/abstracts.js lines 27-41,
grammar patterns spec-modelled) -/

/-- ASCII letter test. -/
def isAlphaChar (c : Char) : Bool :=
  (97 ≤ c.toNat && c.toNat ≤ 122) || (65 ≤ c.toNat && c.toNat ≤ 90)

/-- ASCII digit test. -/
def isDigitChar (c : Char) : Bool := 48 ≤ c.toNat && c.toNat ≤ 57

/-- Whole-subtag character tests. -/
def allAlpha (s : JStr) : Bool := s.all isAlphaChar

/-- All-digits subtag test. -/
def allDigit (s : JStr) : Bool := s.all isDigitChar

/-- Alphanumeric subtag test. -/
def allAlnum (s : JStr) : Bool := s.all (fun c => isAlphaChar c || isDigitChar c)

/-- RFC 5646 `variant`: 5-8 alphanumerics, or a digit followed by 3
alphanumerics. -/
def isVariantSub (p : JStr) : Bool :=
  (5 ≤ p.length && p.length ≤ 8 && allAlnum p) ||
    (p.length = 4 && allAlnum p && isDigitChar (p.headD (Char.ofNat 0)))

/-- RFC 5646 `script`: 4 letters. -/
def isScriptSub (p : JStr) : Bool := p.length = 4 && allAlpha p

/-- RFC 5646 `region`: 2 letters or 3 digits. -/
def isRegionSub (p : JStr) : Bool :=
  (p.length = 2 && allAlpha p) || (p.length = 3 && allDigit p)

/-- RFC 5646 `extlang` element: 3 letters. -/
def isExtlangSub (p : JStr) : Bool := p.length = 3 && allAlpha p

/-- RFC 5646 extension `singleton`: one alphanumeric other than the
private-use marker. -/
def isSingletonSub (p : JStr) : Bool :=
  p.length = 1 && allAlnum p && p ≠ "x".data

/-- Private-use subtags: one or more parts of 1-8 alphanumerics. -/
def privSubtagsOk (parts : List JStr) : Bool :=
  match parts with
  | [] => false
  | _ => parts.all (fun p => 1 ≤ p.length && p.length ≤ 8 && allAlnum p)

/-- Extension subtags after a singleton: consume 2-8-alphanumeric parts
(at least one), handing back to the singleton parser at the next singleton
or the private-use marker; duplicate singletons are rejected. -/
def parseExtSubtags (seenSingles : List JStr) (consumedOne : Bool) :
    List JStr → Bool
  | [] => consumedOne
  | p :: rest =>
    if isSingletonSub p then
      consumedOne && !(seenSingles.contains p) &&
        parseExtSubtags (p :: seenSingles) false rest
    else if p = "x".data then consumedOne && privSubtagsOk rest
    else (2 ≤ p.length && p.length ≤ 8 && allAlnum p) &&
      parseExtSubtags seenSingles true rest

/-- Extensions and private use: zero or more extension sequences (each a
fresh singleton plus subtags) and an optional trailing private-use part. -/
def parseExtensions (seenSingles : List JStr) : List JStr → Bool
  | [] => true
  | p :: rest =>
    if isSingletonSub p then
      !(seenSingles.contains p) && parseExtSubtags (p :: seenSingles) false rest
    else if p = "x".data then privSubtagsOk rest
    else false

/-- Variants (each appearing at most once) followed by extensions. -/
def parseVariants (seenVars : List JStr) : List JStr → Bool
  | [] => true
  | p :: rest =>
    if isVariantSub p then
      !(seenVars.contains p) && parseVariants (p :: seenVars) rest
    else parseExtensions [] (p :: rest)

/-- Optional region, then variants. -/
def parseRegion : List JStr → Bool
  | [] => true
  | p :: rest =>
    if isRegionSub p then parseVariants [] rest
    else parseVariants [] (p :: rest)

/-- Optional script, then region. -/
def parseScript : List JStr → Bool
  | [] => true
  | p :: rest =>
    if isScriptSub p then parseRegion rest
    else parseRegion (p :: rest)

/-- Up to three extlang elements, then script. -/
def parseExtlangs (count : Nat) : List JStr → Bool
  | [] => true
  | p :: rest =>
    if isExtlangSub p && count < 3 then parseExtlangs (count + 1) rest
    else parseScript (p :: rest)

/-- Modelled from the spec: `IsStructurallyValidLanguageTag`
(src/abstracts.js lines 27-41) tests the tag against grammar patterns
(`expBCP47Syntax`, `expVariantDupes`, `expSingletonDupes`) that live in the
grammar/registry module not under `src/`.  Per the spec the check accepts
exactly the BCP-47 `langtag` productions — language, optional extlang,
optional script, optional region, variants, extensions, private use — and
rejects duplicate variant subtags and duplicate singleton subtags.  The
patterns carry the case-insensitive flag, so the tag is lowercased before
parsing. -/
def IsStructurallyValidLanguageTag (locale : JStr) : Bool :=
  match splitDash (jsToLower locale) with
  | [] => false
  | p :: rest =>
    if p = "x".data then privSubtagsOk rest
    else if allAlpha p && 2 ≤ p.length && p.length ≤ 3 then parseExtlangs 0 rest
    else if allAlpha p && 4 ≤ p.length && p.length ≤ 8 then parseScript rest
    else false

/- ### CanonicalizeLanguageTag (src/abstracts.js lines 58-129,
registry tables spec-modelled) -/

/-- Title-casing of one subtag:
`parts[i].charAt(0).toUpperCase() + parts[i].slice(1)`. -/
def titleCaseSubtag : JStr → JStr
  | [] => []
  | c :: rest => upperChar c :: rest

/-- The subtag-casing loop of CanonicalizeLanguageTag (lines 72-84) over
the subtags after the first: 2-character subtags are uppercased,
4-character subtags are title-cased, and the loop breaks at the first
1-character subtag other than "x" (subtags after the break keep the
lowercase form produced by step one). -/
def caseSubtagsAfterFirst : List JStr → List JStr
  | [] => []
  | p :: rest =>
    if p.length = 2 then jsToUpper p :: caseSubtagsAfterFirst rest
    else if p.length = 4 then titleCaseSubtag p :: caseSubtagsAfterFirst rest
    else if p.length = 1 ∧ p ≠ "x".data then p :: rest
    else p :: caseSubtagsAfterFirst rest

/-- Modelled from the spec: `expExtSequences` is part of the grammar module
not under `src/`; per the spec it matches one extension sequence — a `-`,
a singleton (an alphanumeric other than the private-use marker x), and one
or more groups of `-` plus 2-8 alphanumerics (case-insensitive). -/
def extSeqMatchLen (s : JStr) : Option Nat :=
  match s with
  | '-' :: c :: rest =>
    if isExtChar c ∧ lowerChar c ≠ 'x' then
      let g := extGroupsLen (rest.length + 1) rest
      if g = 0 then none else some (2 + g)
    else none
  | _ => none

/-- All matches of the extension-sequence pattern under its global flag
(the `locale.match(expExtSequences)` call of step 1). -/
def extSeqMatchesAux : Nat → JStr → List JStr
  | 0, _ => []
  | _ + 1, [] => []
  | fuel + 1, c :: rest =>
    match extSeqMatchLen (c :: rest) with
    | some len =>
      (c :: rest).take len :: extSeqMatchesAux fuel ((c :: rest).drop len)
    | none => extSeqMatchesAux fuel rest

/-- JavaScript `locale.match(expExtSequences)` (empty list for `null`). -/
def extSeqMatches (s : JStr) : List JStr := extSeqMatchesAux (s.length + 1) s

/-- Length of the maximal run of consecutive extension sequences starting
at the head of the string: the match of
`RegExp('(?:' + expExtSequences.source + ')+', 'i')`. -/
def extSeqRunLen : Nat → JStr → Nat
  | 0, _ => 0
  | fuel + 1, s =>
    match extSeqMatchLen s with
    | some len => len + extSeqRunLen fuel (s.drop len)
    | none => 0

/-- Replacement of the first run of consecutive extension sequences by the
given replacement string (the `locale.replace` of step 1). -/
def replaceExtRunAux (repl : JStr) : Nat → JStr → JStr
  | 0, s => s
  | _ + 1, [] => []
  | fuel + 1, c :: rest =>
    match extSeqMatchLen (c :: rest) with
    | some _ =>
      repl ++ (c :: rest).drop (extSeqRunLen ((c :: rest).length + 1) (c :: rest))
    | none => c :: replaceExtRunAux repl fuel rest

/-- Lexicographic (code-unit) order on strings, the default comparison of
`Array.prototype.sort()`. -/
def jsStrLt : JStr → JStr → Bool
  | [], [] => false
  | [], _ :: _ => true
  | _ :: _, [] => false
  | a :: as, b :: bs =>
    if a.toNat < b.toNat then true
    else if b.toNat < a.toNat then false
    else jsStrLt as bs

/-- Insertion into an ascending-sorted list (stable). -/
def insertSorted (x : JStr) : List JStr → List JStr
  | [] => [x]
  | y :: rest =>
    if jsStrLt y x then y :: insertSorted x rest else x :: y :: rest

/-- JavaScript `match.sort()` in ascending code-unit order. -/
def sortStrings : List JStr → List JStr
  | [] => []
  | x :: rest => insertSorted x (sortStrings rest)

/-- JavaScript `arrJoin.call(match, '')`. -/
def joinAll (l : List JStr) : JStr := l.foldr (· ++ ·) []

/-- Modelled from the spec: the SubtagRegistry's exact redundant and
grandfathered tags table (`redundantTags.tags`) lives in the registry
module not under `src/`.  Per the spec it maps whole redundant or
grandfathered tags to their IANA preferred values; a representative sample
of IANA entries is included.  The spec's testable property 2 requires
canonicalization to preserve `"sgn-BE-FR"`, so the registry described by
the spec carries no exact entry for that tag. -/
def redundantTagsTags : List (JStr × JStr) :=
  [("art-lojban".data, "jbo".data), ("i-klingon".data, "tlh".data),
   ("zh-cmn".data, "cmn".data)]

/-- Modelled from the spec: the SubtagRegistry's subtag table
(`redundantTags.subtags`), mapping outdated subtags to IANA preferred
values (representative sample: superseded region codes and language
codes). -/
def redundantTagsSubtags : List (JStr × JStr) :=
  [("BU".data, "MM".data), ("DD".data, "DE".data), ("iw".data, "he".data),
   ("heploc".data, "alalc97".data)]

/-- Modelled from the spec: the SubtagRegistry's extlang table
(`redundantTags.extLang`), mapping an extlang subtag to its preferred
subtag together with its required prefix language (representative IANA
entries, whose preferred value always equals the extlang itself). -/
def redundantTagsExtLang : List (JStr × JStr × JStr) :=
  [("aao".data, "aao".data, "ar".data), ("abv".data, "abv".data, "ar".data),
   ("yue".data, "yue".data, "zh".data)]

/-- Step 3 of CanonicalizeLanguageTag (lines 111-126): the indexed
replacement loop over `(parts, i, max)` starting at i = 1.  A subtag found
in the subtag table is replaced in place.  An extlang subtag is replaced by
its preferred value; when it sits at index 1 the registry entry for the
(new) value is consulted again, and if its required prefix equals the
primary language subtag the source runs `parts = arrSlice.call(parts, i++)`
and `max -= 1` — dropping the prefix, advancing i by 2 (the slice's `i++`
plus the loop update) and shortening max, which skips the subtag shifted
into the examined position.  Looking up the extlang entry of a preferred
value that is not itself a key would read `undefined[1]` and throw. -/
def canonSubtagLoop : Nat → List JStr → Nat → Nat → Except JSErr (List JStr)
  | 0, parts, _, _ => .ok parts
  | fuel + 1, parts, i, mx =>
    if i < mx then
      let p := parts.getD i []
      match lookupAssoc redundantTagsSubtags p with
      | some pref => canonSubtagLoop fuel (parts.set i pref) (i + 1) mx
      | none =>
        match lookupAssoc redundantTagsExtLang p with
        | some (pref, _) =>
          let parts' := parts.set i pref
          if i = 1 then
            match lookupAssoc redundantTagsExtLang (parts'.getD 1 []) with
            | some (_, pfx) =>
              if pfx = parts'.getD 0 [] then
                canonSubtagLoop fuel (parts'.drop i) (i + 2) (mx - 1)
              else canonSubtagLoop fuel parts' (i + 1) mx
            | none => .error .typeError
          else canonSubtagLoop fuel parts' (i + 1) mx
        | none => canonSubtagLoop fuel parts (i + 1) mx
    else .ok parts

/-- Embedding of `CanonicalizeLanguageTag` (src/abstracts.js lines 58-129):
lowercase the tag; regularize subtag casing; sort consecutive extension
sequences when there are at least two; replace an exact redundant tag from
the registry; then run the subtag/extlang replacement loop. -/
def CanonicalizeLanguageTag (locale : JStr) : Except JSErr JStr :=
  let lowered := jsToLower locale
  let cased :=
    joinDash (match splitDash lowered with
      | [] => []
      | h :: t => h :: caseSubtagsAfterFirst t)
  let ms := extSeqMatches cased
  let sorted :=
    if ms.length > 1 then
      replaceExtRunAux (joinAll (sortStrings ms)) (cased.length + 1) cased
    else cased
  let replaced := (lookupAssoc redundantTagsTags sorted).getD sorted
  let parts := splitDash replaced
  match canonSubtagLoop (parts.length + 1) parts 1 parts.length with
  | .error e => .error e
  | .ok parts' => .ok (joinDash parts')

/- Auxiliary facts giving fuel-independence of the loop. -/

theorem jsLastIndexOfChar_lt_length {s : JStr} {c : Char} {i : Nat}
    (h : jsLastIndexOfChar s c = some i) : i < s.length := by
  unfold jsLastIndexOfChar at h
  cases hf : s.reverse.findIdx? (· = c) with
  | none => rw [hf] at h; exact absurd h (by simp)
  | some j =>
    rw [hf] at h
    have hj : j < s.reverse.length := List.findIdx?_eq_some_iff_findIdx_eq.mp hf |>.1
    simp only [Option.some.injEq] at h
    subst h
    have hs : 0 < s.length := by
      by_contra hz
      have : s = [] := List.eq_nil_of_length_eq_zero (Nat.eq_zero_of_not_pos hz)
      subst this; simp at hj
    omega

theorem balStep_length_lt {c c' : JStr} (h : balStep c = some c') :
    c'.length < c.length := by
  unfold balStep at h
  cases hf : jsLastIndexOfChar c '-' with
  | none => rw [hf] at h; exact absurd h (by simp)
  | some pos =>
    rw [hf] at h
    have hpos := jsLastIndexOfChar_lt_length hf
    simp only [Option.some.injEq] at h
    subst h
    simp only [List.length_take]
    split <;> omega

theorem balLoop_fuel_irrel (avail : List JStr) :
    ∀ fuel cand, cand.length < fuel →
      balLoop avail fuel cand = BestAvailableLocale avail cand := by
  intro fuel
  induction fuel using Nat.strong_induction_on with
  | _ fuel ih =>
    intro cand hlt
    match fuel with
    | 0 => omega
    | f + 1 =>
      unfold BestAvailableLocale
      unfold balLoop
      split
      · rfl
      · cases hs : balStep cand with
        | none => rfl
        | some cand' =>
          have hl := balStep_length_lt hs
          show balLoop avail f cand' = balLoop avail cand.length cand'
          rw [ih f (by omega) cand' (by omega),
              ih cand.length (by omega) cand' (by omega)]

/-- C1: BestAvailableLocale returns the candidate itself when it is in the
available-locale set; when it is not and no `"-"` separator remains it
returns no match; when it is not and a separator remains it recurses on the
candidate truncated at its last `"-"` (the cut moving two characters
further left when a `"-"` sits at `pos - 2`, i.e. when a one-character
subtag immediately precedes the separator); in particular
`BestAvailableLocale(["en-GB","fr"], "en-GB-oed")` returns `"en-GB"` and
`BestAvailableLocale(["fr"], "en")` returns no match. -/
theorem bestAvailableLocale_spec :
    (∀ avail loc, jsIndexOf avail loc > -1 →
      BestAvailableLocale avail loc = some loc) ∧
    (∀ avail loc, ¬ jsIndexOf avail loc > -1 → jsLastIndexOfChar loc '-' = none →
      BestAvailableLocale avail loc = none) ∧
    (∀ avail loc loc', ¬ jsIndexOf avail loc > -1 → balStep loc = some loc' →
      BestAvailableLocale avail loc = BestAvailableLocale avail loc') ∧
    BestAvailableLocale ["en-GB".data, "fr".data] "en-GB-oed".data = some ("en-GB".data) ∧
    BestAvailableLocale ["fr".data] "en".data = none := by
  refine ⟨?_, ?_, ?_, by decide, by decide⟩
  · intro avail loc h
    unfold BestAvailableLocale balLoop
    rw [if_pos h]
  · intro avail loc h hnone
    unfold BestAvailableLocale balLoop balStep
    rw [if_neg h, hnone]
  · intro avail loc loc' h hstep
    have hl := balStep_length_lt hstep
    unfold BestAvailableLocale
    unfold balLoop
    rw [if_neg h, hstep]
    exact balLoop_fuel_irrel avail loc.length loc' (by omega)

/-- Witness for `bestAvailableLocale_spec`: its three conditional parts
applied at concrete inputs. -/
theorem bestAvailableLocale_spec_witness :
    BestAvailableLocale ["fr".data] "fr".data = some ("fr".data) ∧
    BestAvailableLocale ["fr".data] "en".data = none ∧
    BestAvailableLocale ["fr".data] "en-GB".data = BestAvailableLocale ["fr".data] "en".data :=
  ⟨bestAvailableLocale_spec.1 _ _ (by decide),
   bestAvailableLocale_spec.2.1 _ _ (by decide) (by decide),
   bestAvailableLocale_spec.2.2.1 _ _ _ (by decide) (by decide)⟩

/- Auxiliary facts relating the shim loop to a first-match search. -/

theorem arrIndexOfShimLoop_eq {α : Type} [DecidableEq α] (t : List α) (s : α) :
    ∀ k i, k = t.length - i →
      arrIndexOfShimLoop t s i k = ((t.drop i).findIdx? (· = s)).map (i + ·) := by
  intro k
  induction k with
  | zero =>
    intro i hi
    have : t.length ≤ i := by omega
    rw [List.drop_eq_nil_of_le this]
    rfl
  | succ k ih =>
    intro i hi
    have hilt : i < t.length := by omega
    have hk : k = t.length - (i + 1) := by omega
    have hdrop : t.drop i = t[i] :: t.drop (i + 1) := List.drop_eq_getElem_cons hilt
    have hget : t.get? i = some t[i] := by
      rw [List.get?_eq_getElem?, List.getElem?_eq_getElem hilt]
    unfold arrIndexOfShimLoop
    rw [hdrop, List.findIdx?_cons, hget]
    by_cases hc : t[i] = s
    · simp [hc]
    · rw [if_neg (by simp [hc]), if_neg (by simp [hc]), ih (i + 1) hk]
      cases hr : (t.drop (i + 1)).findIdx? (· = s) with
      | none => simp [List.findIdx?_succ, hr]
      | some j => simp [List.findIdx?_succ, hr]; omega

/-- C9 (counterexample): the fallback shim is not equivalent to the built-in
`Array.prototype.indexOf` — on the non-empty array `[0]`, searching for `1`,
the built-in returns `-1` but the shim falls off its loop and returns
`undefined` (no value at all). -/
theorem arrIndexOfShim_not_builtin :
    arrIndexOfShim [(0 : Nat)] 1 0 = none ∧
    arrIndexOfBuiltin [(0 : Nat)] 1 0 = -1 ∧
    arrIndexOfShim [(0 : Nat)] 1 0 ≠ some (arrIndexOfBuiltin [(0 : Nat)] 1 0) := by
  decide

/-- C9 (amended): the shim agrees with the built-in whenever the receiver is
empty (both give `-1`) or some element strictly equal to the search value
exists at or after the start index (both give the first such index); but on
a non-empty receiver with no matching element it returns `undefined`
(modelled `none`) instead of the built-in's `-1`. -/
theorem arrIndexOfShim_spec {α : Type} [DecidableEq α]
    (t : List α) (s : α) (f : Nat) :
    arrIndexOfShim t s f =
      if t.length = 0 then some (-1)
      else if 0 ≤ arrIndexOfBuiltin t s f then some (arrIndexOfBuiltin t s f)
      else none := by
  unfold arrIndexOfShim arrIndexOfBuiltin
  by_cases h0 : t.length = 0
  · rw [if_pos h0, if_pos h0]
  · rw [if_neg h0, if_neg h0,
        arrIndexOfShimLoop_eq t s (t.length - f) f rfl]
    cases hr : (t.drop f).findIdx? (· = s) with
    | none => simp
    | some j => simp; positivity

/-- C6: `ToDateTimeOptions(options, "date", "date")` with none of
weekday/year/month/day present injects `year:"numeric"`, `month:"numeric"`,
`day:"numeric"`; with `weekday` (or any of the four date properties) already
present it injects nothing. -/
theorem toDateTimeOptions_spec :
    (∀ o : DTOptions, o.weekday = none → o.year = none → o.month = none →
      o.day = none →
      ToDateTimeOptions (some o) "date".data "date".data =
        { o with year := some ("numeric".data), month := some ("numeric".data),
                 day := some ("numeric".data) }) ∧
    (∀ o : DTOptions,
      (o.weekday ≠ none ∨ o.year ≠ none ∨ o.month ≠ none ∨ o.day ≠ none) →
      ToDateTimeOptions (some o) "date".data "date".data = o) := by
  constructor
  · intro o h1 h2 h3 h4
    simp [ToDateTimeOptions, h1, h2, h3, h4]
  · intro o h
    have hp : o.weekday.isSome ∨ o.year.isSome ∨ o.month.isSome ∨ o.day.isSome := by
      rcases h with h | h | h | h
      · exact Or.inl (Option.ne_none_iff_isSome.mp h)
      · exact Or.inr (Or.inl (Option.ne_none_iff_isSome.mp h))
      · exact Or.inr (Or.inr (Or.inl (Option.ne_none_iff_isSome.mp h)))
      · exact Or.inr (Or.inr (Or.inr (Option.ne_none_iff_isSome.mp h)))
    simp [ToDateTimeOptions, hp]

/-- Witness for `toDateTimeOptions_spec`: both parts at concrete records. -/
theorem toDateTimeOptions_spec_witness :
    ToDateTimeOptions (some {}) "date".data "date".data =
      { year := some ("numeric".data), month := some ("numeric".data),
        day := some ("numeric".data) } ∧
    ToDateTimeOptions (some { weekday := some ("narrow".data) })
        "date".data "date".data = { weekday := some ("narrow".data) } :=
  ⟨toDateTimeOptions_spec.1 {} rfl rfl rfl rfl,
   toDateTimeOptions_spec.2 { weekday := some ("narrow".data) }
     (Or.inl (by simp))⟩

/-- C8: under a 12-hour clock the hour field value is rendered modulo 12,
and a 0 result is remapped to 12 exactly when the hour-zero-as-12 flag is
set; in particular, through a numeric-styled Number-Engine rendering, hour 0
renders as "12" with the flag set and as "0" without it. -/
theorem formatDateTime_hour12_spec :
    (∀ v : Int, (formatHourValue false v).1 = v % 12) ∧
    (∀ v : Int, v % 12 ≠ 0 → (formatHourValue true v).1 = v % 12) ∧
    (∀ v : Int, v % 12 = 0 → (formatHourValue true v).1 = 12) ∧
    renderHour12Numeric true 0 = "12".data ∧
    renderHour12Numeric false 0 = "0".data := by
  refine ⟨?_, ?_, ?_, by decide, by decide⟩
  · intro v
    simp [formatHourValue]
  · intro v h
    simp [formatHourValue, h]
  · intro v h
    simp [formatHourValue, h]

/-- Witness for `formatDateTime_hour12_spec`: its conditional parts applied
at hours 1 and 0. -/
theorem formatDateTime_hour12_spec_witness :
    (formatHourValue true 1).1 = 1 % 12 ∧ (formatHourValue true 0).1 = 12 :=
  ⟨formatDateTime_hour12_spec.2.1 1 (by decide),
   formatDateTime_hour12_spec.2.2.1 0 (by decide)⟩

/-- C10: `ToLocalTime` always produces era 0 — `+(d.getFullYear >= 0)` never
invokes the accessor, and ToNumber of the function object is NaN, so the
comparison is false for every date regardless of the year's sign — and a
formatter that resolved an era component therefore always substitutes the
value 0 into the pattern. -/
theorem toLocalTime_era_spec :
    (∀ d : JSDate, (ToLocalTime d).era = 0) ∧
    (∀ (d : JSDate) (pattern : JStr),
      eraSubstitute d pattern =
        jsReplaceFirst ("\x7bera\x7d".data) ("0".data) pattern) := by
  constructor
  · intro d
    rfl
  · intro d pattern
    have h0 : (ToLocalTime d).era = 0 := rfl
    unfold eraSubstitute
    rw [h0, show FormatNumberInt 0 = "0".data by decide]

/- Auxiliary facts for the BasicFormatMatcher claim. -/

theorem componentPenalty_some_some (a b : JStr) :
    componentPenalty (some a) (some b) = -(styleDistancePenalty a b) := by
  simp only [componentPenalty, styleDistancePenalty]
  rw [if_neg (by simp), if_neg (by simp)]
  split_ifs <;> norm_num

set_option linter.unusedTactic false in
theorem penalty_sum_char (opts : FmtOptions) (f : DTFormat) :
    ∀ l : List ((FmtOptions → Option JStr) × (DTFormat → Option JStr)),
      (l.map (fun pr => componentPenalty (pr.1 opts) (pr.2 f))).sum =
        -(120 * (l.countP (fun pr => (pr.1 opts).isSome && (pr.2 f).isNone) : Int)
          + 20 * (l.countP (fun pr => (pr.1 opts).isNone && (pr.2 f).isSome) : Int)
          + (l.map (fun pr =>
              match pr.1 opts, pr.2 f with
              | some a, some b => styleDistancePenalty a b
              | _, _ => 0)).sum) := by
  have hnn : componentPenalty none none = 0 := by decide
  have hns : ∀ b, componentPenalty none (some b) = -20 := fun b => by
    simp [componentPenalty]
  have hsn : ∀ a, componentPenalty (some a) none = -120 := fun a => by
    simp [componentPenalty]
  intro l
  induction l with
  | nil => simp
  | cons pr rest ih =>
    simp only [List.map_cons, List.sum_cons, List.countP_cons, ih]
    rcases h1 : pr.1 opts with _ | a <;> rcases h2 : pr.2 f with _ | b <;>
        simp [h1, h2, hnn, hns, hsn, componentPenalty_some_some] <;>
      push_cast <;> ring

theorem bfmLoop_spec (opts : FmtOptions) :
    ∀ (rest : List DTFormat) (bf : DTFormat),
      ∃ pre post,
        bf :: rest = pre ++ bfmLoop opts rest (formatScore opts bf) bf :: post ∧
        (∀ p ∈ pre,
          formatScore opts p <
            formatScore opts (bfmLoop opts rest (formatScore opts bf) bf)) ∧
        (∀ q ∈ bf :: rest,
          formatScore opts q ≤
            formatScore opts (bfmLoop opts rest (formatScore opts bf) bf)) := by
  intro rest
  induction rest with
  | nil =>
    intro bf
    refine ⟨[], [], by simp [bfmLoop], by simp, ?_⟩
    intro q hq
    simp only [List.mem_singleton] at hq
    subst hq
    exact le_refl _
  | cons f rest ih =>
    intro bf
    by_cases hgt : formatScore opts f > formatScore opts bf
    · have hl : bfmLoop opts (f :: rest) (formatScore opts bf) bf
              = bfmLoop opts rest (formatScore opts f) f := by
        rw [bfmLoop, if_pos hgt]
      obtain ⟨pre', post', hdec, hpre, hmax⟩ := ih f
      have hfg : formatScore opts f ≤
          formatScore opts (bfmLoop opts rest (formatScore opts f) f) :=
        hmax f (List.mem_cons_self _ _)
      refine ⟨bf :: pre', post', ?_, ?_, ?_⟩
      · rw [hl]
        simpa using congrArg (bf :: ·) hdec
      · intro p hp
        rw [hl]
        rcases List.mem_cons.mp hp with hp | hp
        · subst hp
          omega
        · exact hpre p hp
      · intro q hq
        rw [hl]
        rcases List.mem_cons.mp hq with hq | hq
        · subst hq
          omega
        · exact hmax q hq
    · have hl : bfmLoop opts (f :: rest) (formatScore opts bf) bf
              = bfmLoop opts rest (formatScore opts bf) bf := by
        rw [bfmLoop, if_neg hgt]
      obtain ⟨pre', post', hdec, hpre, hmax⟩ := ih bf
      cases pre' with
      | nil =>
        simp only [List.nil_append, List.cons.injEq] at hdec
        obtain ⟨hg, hpost⟩ := hdec
        have hsEq : formatScore opts bf =
            formatScore opts (bfmLoop opts rest (formatScore opts bf) bf) := by
          rw [← hg]
        refine ⟨[], f :: post', ?_, by simp, ?_⟩
        · rw [hl, ← hg, hpost]
          rfl
        · intro q hq
          rw [hl]
          rcases List.mem_cons.mp hq with hq | hq
          · subst hq
            omega
          rcases List.mem_cons.mp hq with hq | hq
          · subst hq
            omega
          · exact hmax q (List.mem_cons_of_mem _ hq)
      | cons x pre'' =>
        simp only [List.cons_append, List.cons.injEq] at hdec
        obtain ⟨hx, hrest⟩ := hdec
        have hbfg : formatScore opts bf <
            formatScore opts (bfmLoop opts rest (formatScore opts bf) bf) := by
          have := hpre x (List.mem_cons_self _ _)
          rw [← hx] at this
          exact this
        refine ⟨bf :: f :: pre'', post', ?_, ?_, ?_⟩
        · rw [hl]
          simp only [List.cons_append]
          rw [← hrest]
        · intro p hp
          rw [hl]
          rcases List.mem_cons.mp hp with hp | hp
          · subst hp
            exact hbfg
          rcases List.mem_cons.mp hp with hp | hp
          · subst hp
            omega
          · exact hpre p (List.mem_cons_of_mem _ hp)
        · intro q hq
          rw [hl]
          rcases List.mem_cons.mp hq with hq | hq
          · subst hq
            omega
          rcases List.mem_cons.mp hq with hq | hq
          · subst hq
            omega
          · exact hmax q (List.mem_cons_of_mem _ hq)

/-- C7: BasicFormatMatcher's score charges 120 per requested-but-absent
component and 20 per present-but-unrequested component plus the
style-distance penalties where both sides specify a style; it selects the
candidate with the highest total score keeping the first-seen candidate on
ties; and for a request of exactly year:"numeric", a candidate offering
year:"numeric", month:"long" scores exactly 20 below (hence strictly below)
a candidate offering exactly year:"numeric". -/
theorem basicFormatMatcher_spec :
    (∀ (opts : FmtOptions) (f : DTFormat),
      formatScore opts f =
        -(120 * (removedComponentCount opts f : Int)
          + 20 * (addedComponentCount opts f : Int)
          + stylePenaltyTotal opts f)) ∧
    (∀ (opts : FmtOptions) (formats : List DTFormat) (g : DTFormat),
      BasicFormatMatcher opts formats = some g →
      ∃ pre post, formats = pre ++ g :: post ∧
        (∀ p ∈ pre, formatScore opts p < formatScore opts g) ∧
        (∀ q ∈ formats, formatScore opts q ≤ formatScore opts g)) ∧
    (formatScore { year := some ("numeric".data) }
        { year := some ("numeric".data), month := some ("long".data) } =
      formatScore { year := some ("numeric".data) }
        { year := some ("numeric".data) } - 20 ∧
     formatScore { year := some ("numeric".data) }
        { year := some ("numeric".data), month := some ("long".data) } <
      formatScore { year := some ("numeric".data) }
        { year := some ("numeric".data) }) := by
  refine ⟨?_, ?_, by decide, by decide⟩
  · intro opts f
    exact penalty_sum_char opts f dtComponentPairs
  · intro opts formats g h
    match formats with
    | [] => exact absurd h (by simp [BasicFormatMatcher])
    | f :: rest =>
      have hg : bfmLoop opts rest (formatScore opts f) f = g := by
        simpa [BasicFormatMatcher] using h
      obtain ⟨pre, post, hdec, hpre, hmax⟩ := bfmLoop_spec opts rest f
      rw [hg] at hdec hpre hmax
      exact ⟨pre, post, hdec, hpre, hmax⟩

/-- Witness for `basicFormatMatcher_spec`: the selection part applied to the
two candidates of the claim's concrete example (the exact-year candidate
wins). -/
theorem basicFormatMatcher_spec_witness :
    ∃ pre post,
      [({ year := some ("numeric".data), month := some ("long".data) } : DTFormat),
       { year := some ("numeric".data) }] =
        pre ++ ({ year := some ("numeric".data) } : DTFormat) :: post ∧
      (∀ p ∈ pre,
        formatScore { year := some ("numeric".data) } p <
          formatScore { year := some ("numeric".data) }
            { year := some ("numeric".data) }) ∧
      (∀ q ∈ [({ year := some ("numeric".data), month := some ("long".data) } : DTFormat),
              { year := some ("numeric".data) }],
        formatScore { year := some ("numeric".data) } q ≤
          formatScore { year := some ("numeric".data) }
            { year := some ("numeric".data) }) :=
  basicFormatMatcher_spec.2.1 _ _ _ (by decide)

/-- C2: extension-key adoption during ResolveLocale.  The value branch of
the claim holds: requesting "en-u-ca-buddhist" against available locale
"en" with allowed ca-values [gregory, buddhist, true] adopts "buddhist"
(longer than 2 characters and among the allowed values).  The bare-key
branch of the claim fails on the code: requesting "en-u-ca" — key present
with no explicit value, "true" among the allowed values — does not adopt
"true"; the call `indexOf(keyLocaleData, 'true')` in that branch passes no
receiver (the only call site missing `.call`), so the operation throws a
TypeError instead. -/
theorem resolveLocale_extension_spec :
    ResolveLocale ["en".data] ["en-u-ca-buddhist".data]
        { localeMatcher := "lookup".data, keyOpts := [] } ["ca".data]
        [("en".data, [("ca".data, ["gregory".data, "buddhist".data, "true".data])])]
        "en".data =
      .ok { dataLocale := "en".data, locale := "en-u-ca-buddhist".data,
            keyValues := [("ca".data, some ("buddhist".data))] } ∧
    ResolveLocale ["en".data] ["en-u-ca".data]
        { localeMatcher := "lookup".data, keyOpts := [] } ["ca".data]
        [("en".data, [("ca".data, ["gregory".data, "buddhist".data, "true".data])])]
        "en".data = .error .typeError := by
  exact ⟨by decide, by decide⟩

/-- C3: ResolveLocale called with an empty available-locale set fails with
the MissingData error before any matching, extension processing or result
construction, for every requested-locale list, options record, key list,
locale-data map and default locale. -/
theorem resolveLocale_empty_available (requestedLocales : List JStr)
    (options : RLOptions) (relevantExtensionKeys : List JStr)
    (localeData : List (JStr × List (JStr × KeyLocaleData)))
    (defaultLocale : JStr) :
    ResolveLocale [] requestedLocales options relevantExtensionKeys
      localeData defaultLocale = .error .missingData := rfl

/-- C4: canonicalization is not idempotent on every structurally valid tag.
The structurally valid tag "ar-aao-bu" canonicalizes to "aao-BU" — the
extlang "aao" is replaced and the redundant primary-language prefix "ar"
dropped, but the slice with its extra index increment skips the region
subtag shifted into the examined slot, leaving "BU" unreplaced despite the
step-3 rule the code itself documents — and canonicalizing a second time
yields "aao-MM" ≠ "aao-BU". -/
theorem canonicalize_not_idempotent :
    IsStructurallyValidLanguageTag ("ar-aao-bu".data) = true ∧
    CanonicalizeLanguageTag ("ar-aao-bu".data) = .ok ("aao-BU".data) ∧
    CanonicalizeLanguageTag ("aao-BU".data) = .ok ("aao-MM".data) ∧
    (CanonicalizeLanguageTag ("ar-aao-bu".data)).bind CanonicalizeLanguageTag ≠
      CanonicalizeLanguageTag ("ar-aao-bu".data) := by
  refine ⟨by decide, by decide, by decide, by decide⟩

/-- C5: canonicalization lowercases the whole tag and then re-cases the
subtags after the first — two-character subtags uppercase ("en-us" becomes
"en-US"), four-character subtags title-case ("zh-hant" becomes "zh-Hant"),
the special-casing stops at the first singleton other than "x"
("en-a-ca-us" keeps "ca" and "us" lowercase) — and "sgn-BE-FR" keeps its
uppercased two-letter subtags, which follow the non-singleton subtag
"sgn". -/
theorem canonicalizeTag_casing_spec :
    CanonicalizeLanguageTag ("en-us".data) = .ok ("en-US".data) ∧
    CanonicalizeLanguageTag ("zh-hant".data) = .ok ("zh-Hant".data) ∧
    CanonicalizeLanguageTag ("en-a-ca-us".data) = .ok ("en-a-ca-us".data) ∧
    CanonicalizeLanguageTag ("sgn-BE-FR".data) = .ok ("sgn-BE-FR".data) ∧
    CanonicalizeLanguageTag ("SGN-be-fr".data) = .ok ("sgn-BE-FR".data) := by
  refine ⟨by decide, by decide, by decide, by decide, by decide⟩
